import Mathlib

/-!
Verification development for the Vid2Doc repository.

Each Python module relevant to the verified claims is shallowly embedded as
executable Lean definitions: pure helpers become Lean functions, the
slide-change detection loop becomes a step function folded over the incoming
comparator scores, and the fault-tolerant audio pipeline and the job
orchestrator's progress callback become functions over explicit environment
and state records.  External effects (ffmpeg runs, moviepy, whisper, the
wall clock) are modelled as explicit inputs; failure recording (the
`add_audio_failure` database calls) is modelled as an appended list of
failure records.
-/

set_option maxHeartbeats 1000000
set_option maxRecDepth 20000

namespace Vid2Doc

/-! ## Embedding of src/video_processing.py -/

/-- Checked rational division: `none` models a Python `ZeroDivisionError`. -/
def safeDiv (a b : ℚ) : Option ℚ := if b = 0 then none else some (a / b)

/-- Python truncation toward zero, `int(q)` on a rational. -/
def truncInt (q : ℚ) : ℤ := Int.tdiv q.num (q.den : ℤ)

/-- The property dictionary returned by `get_video_properties`
(src/video_processing.py). -/
structure VideoProperties where
  file_size : ℕ
  fps : ℚ
  frame_count : ℤ
  duration : ℚ
  width : ℚ
  height : ℚ
  bit_rate : ℚ
  aspect_ratio : ℚ
  total_frames : ℤ
deriving Repr, DecidableEq

/-- The OpenCV branch of `get_video_properties`
(src/video_processing.py lines 90-108).  The raw values read from the
capture object (`fps`, `frame_count`, `width`, `height`) and the file size
are inputs; every division the Python code performs goes through `safeDiv`,
so a `none` result would correspond to an unguarded `ZeroDivisionError`.
The Python guards are truthiness tests on the respective values. -/
def get_video_properties_cv (file_size : ℕ) (fps : ℚ) (frame_count : ℤ)
    (width height : ℚ) : Option VideoProperties :=
  (if fps ≠ 0 then safeDiv (frame_count : ℚ) fps else some 0).bind fun duration =>
  (if duration ≠ 0 then safeDiv ((file_size : ℚ) * 8) duration else some 0).bind fun bit_rate =>
  (if height ≠ 0 then safeDiv width height else some 0).bind fun aspect_ratio =>
  some { file_size := file_size, fps := fps, frame_count := frame_count,
         duration := duration, width := width, height := height,
         bit_rate := bit_rate, aspect_ratio := aspect_ratio,
         total_frames := frame_count }

/-- The ffprobe fallback branch of `get_video_properties`
(src/video_processing.py lines 30-86).  `rNum`/`rDen` are the parsed
numerator and denominator of `r_frame_rate`; `nbFrames`, `fmtDuration` and
`fmtBitRate` model the optional ffprobe fields, with `none` for an absent
or unparsable field (for the two format strings, presence stands for Python
truthiness of the reported nonempty string).  The stage helpers below are
the successive value computations of that branch; `ffprobeFps` is the
`r_frame_rate` parse result. -/
def ffprobeFps (rNum rDen : ℚ) : Option ℚ :=
  if rDen = 0 then some 0 else safeDiv rNum rDen

/-- Frame-count fallback chain of the ffprobe branch (no division). -/
def ffprobeFrameCount (nbFrames : Option ℤ) (fmtDuration : Option ℚ) (fps : ℚ) : ℤ :=
  match nbFrames with
  | some n => n
  | none =>
    match fmtDuration with
    | some d => if fps ≠ 0 then truncInt (d * fps) else 0
    | none => 0

/-- Duration expression of the ffprobe branch. -/
def ffprobeDuration (fmtDuration : Option ℚ) (fps : ℚ) (frame_count : ℤ) : Option ℚ :=
  if fmtDuration.isSome ∨ fps ≠ 0 then
    match fmtDuration with
    | some d => some d
    | none => if fps ≠ 0 then safeDiv (frame_count : ℚ) fps else some 0
  else some 0

/-- Bit-rate expression of the ffprobe branch. -/
def ffprobeBitRate (fmtBitRate : Option ℚ) (file_size : ℕ) (duration : ℚ) : Option ℚ :=
  match fmtBitRate with
  | some b => some b
  | none => if duration ≠ 0 then safeDiv ((file_size : ℚ) * 8) duration else some 0

def get_video_properties_ffprobe (file_size : ℕ) (rNum rDen : ℚ)
    (nbFrames : Option ℤ) (fmtDuration fmtBitRate : Option ℚ)
    (width height : ℚ) : Option VideoProperties :=
  (ffprobeFps rNum rDen).bind fun fps =>
  let frame_count := ffprobeFrameCount nbFrames fmtDuration fps
  (ffprobeDuration fmtDuration fps frame_count).bind fun duration =>
  (ffprobeBitRate fmtBitRate file_size duration).bind fun bit_rate =>
  (if height ≠ 0 then safeDiv width height else some 0).bind fun aspect_ratio =>
  some { file_size := file_size, fps := fps, frame_count := frame_count,
         duration := duration, width := width, height := height,
         bit_rate := bit_rate, aspect_ratio := aspect_ratio,
         total_frames := frame_count }

/-- The `resize_frame` helper (src/video_processing.py lines 154-161),
parametric in the frame type and in the `cv2.resize` primitive, which
receives the computed scale factor `scale_percent / 100`. -/
def resize_frame {Frame : Type} (cvResize : Frame → ℚ → Frame)
    (frame : Frame) (scale_percent : Option ℚ) : Frame :=
  match scale_percent with
  | none => frame
  | some sp =>
    if sp = 0 ∨ sp ≤ 0 ∨ sp = 100 then frame
    else cvResize frame (sp / 100)

/-! ## Embedding of the slide-change detection loop in src/Main.py -/

/-- State of the slide-change detection loop (src/Main.py lines 69-220).
`boundaries` collects the confirmed boundary frame indices in order;
`slideChanges` collects the emitted timestamps `frame_idx / fps`. -/
structure DetState where
  frameIdx : ℕ
  lastFrameIdx : ℕ
  transitionCounter : ℕ
  slideChange : Bool
  boundaries : List ℕ
  slideChanges : List ℚ
deriving Repr, DecidableEq

/-- Initial detection state (src/Main.py lines 76-83): `frame_idx = 1`,
`last_frame_idx = 1`, `transition_counter = 1`, `slide_change = False`. -/
def detInit : DetState :=
  { frameIdx := 1, lastFrameIdx := 1, transitionCounter := 1,
    slideChange := false, boundaries := [], slideChanges := [] }

/-- One iteration of the detection loop body (src/Main.py lines 107-220) on a
pair of comparator scores `(similarity_score, similarity_score2)`.  The side
effects of a confirmed boundary other than the appended timestamp and frame
index (PDF drawing, audio extraction) are outside this state. -/
def detStep (th1 th2 fps : ℚ) (gap limit : ℕ) (st : DetState)
    (s : ℚ × ℚ) : DetState :=
  let pending : Bool := st.slideChange || decide (s.1 < th1) || decide (s.2 < th2)
  if pending then
    if gap < st.frameIdx - st.lastFrameIdx then
      let tc := st.transitionCounter + 1
      if limit < tc then
        { frameIdx := st.frameIdx + 1, lastFrameIdx := st.frameIdx,
          transitionCounter := 1, slideChange := false,
          boundaries := st.boundaries ++ [st.frameIdx],
          slideChanges := st.slideChanges ++ [(st.frameIdx : ℚ) / fps] }
      else
        { st with frameIdx := st.frameIdx + 1, transitionCounter := tc,
                  slideChange := pending }
    else
      { st with frameIdx := st.frameIdx + 1, slideChange := pending }
  else
    { st with frameIdx := st.frameIdx + 1, slideChange := pending }

/-- The whole detection loop: fold `detStep` over the per-frame comparator
scores, starting from `detInit`. -/
def detRun (th1 th2 fps : ℚ) (gap limit : ℕ) (scores : List (ℚ × ℚ)) : DetState :=
  scores.foldl (detStep th1 th2 fps gap limit) detInit

/-- The condition under which one loop iteration confirms a boundary. -/
def confirms (th1 th2 : ℚ) (gap limit : ℕ) (st : DetState) (s : ℚ × ℚ) : Prop :=
  (st.slideChange || decide (s.1 < th1) || decide (s.2 < th2)) = true ∧
  gap < st.frameIdx - st.lastFrameIdx ∧
  limit < st.transitionCounter + 1

instance (th1 th2 : ℚ) (gap limit : ℕ) (st : DetState) (s : ℚ × ℚ) :
    Decidable (confirms th1 th2 gap limit st s) := by
  unfold confirms; infer_instance

/-- Chain predicate for confirmed boundaries: starting from `prev`, each next
boundary is more than `gap` frames later. -/
def boundaryChain (gap : ℕ) : ℕ → List ℕ → Prop
  | _, [] => True
  | prev, b :: rest => prev + gap < b ∧ boundaryChain gap b rest

/-! ## Embedding of the summarization routing in src/Main.py -/

/-- Python `str.split()` with no separator: split on whitespace runs and drop
empty pieces.  Implemented directly on the character list. -/
def splitWSAux : List Char → List Char → List String
  | [], [] => []
  | [], acc => [String.mk acc.reverse]
  | c :: rest, acc =>
    if c.isWhitespace then
      if acc = [] then splitWSAux rest []
      else String.mk acc.reverse :: splitWSAux rest []
    else splitWSAux rest (c :: acc)

/-- Python `text.split()` on a string. -/
def pySplitWS (s : String) : List String := splitWSAux s.data []

/-- Python `word.endswith('.')`. -/
def endsWithDot (w : String) : Bool := w.data.getLast? == some '.'

/-- The `while mid_index < len(words) and not words[mid_index].endswith('.')`
loop of src/Main.py lines 174-175: advance the index to the next token ending
in a period, or to the end of the list. -/
def extendToDot (words : List String) (i : ℕ) : ℕ :=
  if h : i < words.length then
    if endsWithDot (words.get ⟨i, h⟩) then i else extendToDot words (i + 1)
  else i
termination_by words.length - i

/-- One element of the list returned by the summarization pipeline (and by
the deterministic fallback summarizer): a dict that normally carries a
`summary_text` entry.  Both the transformers pipeline and the fallback return
a one-element list of such dicts, so the summarizer is modelled as producing
a single item. -/
structure SummItem where
  summary_text : Option String
deriving Repr, DecidableEq

/-- The dynamic value held by `summrise_text_result` in src/Main.py lines
163-184: either the list returned by `summrise_text` (branch `100 < wc <
1000`), the plain string built by concatenating the two half summaries
(branch `wc > 1000`), or the literal dict built in the else branch. -/
inductive SummResult where
  | fromPipeline (item : SummItem)
  | joined (s : String)
  | rawDict (summary_text : String)
deriving Repr, DecidableEq

/-- Python `summrise_text(x)[0].get("summary_text", "No summary available")`
for a well-formed (one-element list of dicts) summarizer result. -/
def getSummaryText (item : SummItem) : String :=
  item.summary_text.getD "No summary available"

/-- The summarization routing of src/Main.py lines 160-184, with the
summarizer as a parameter.  Returns the value of `summrise_text_result`
together with the list of inputs passed to `summrise_text`, in call order. -/
def routeSummary (summarize : String → SummItem) (slide_text_full : String) :
    SummResult × List String :=
  let words := pySplitWS slide_text_full
  let wc := words.length
  let calls1 : List String :=
    if 100 < wc ∧ wc < 1000 then [slide_text_full] else []
  if 1000 < wc then
    let mid := extendToDot words (wc / 2)
    let first_half := String.intercalate " " (words.take mid)
    let second_half := String.intercalate " " (words.drop mid)
    (SummResult.joined (getSummaryText (summarize first_half) ++ " " ++
       getSummaryText (summarize second_half)),
     calls1 ++ [first_half, second_half])
  else
    (SummResult.rawDict slide_text_full, calls1)

/-- The result handling of src/Main.py lines 187-193: a dict carrying
`summary_text` yields that text, a nonempty list yields the first element's
text, anything else (including the plain string built in the `> 1000`
branch) yields the fixed fallback message. -/
def summaryParagraph : SummResult → String
  | SummResult.rawDict t => t
  | SummResult.fromPipeline item => getSummaryText item
  | SummResult.joined _ => "No summary available"

/-- The slide text that ends up in the document for a transcript, as computed
by src/Main.py lines 160-193. -/
def slideSummaryText (summarize : String → SummItem) (slide_text_full : String) :
    String :=
  summaryParagraph (routeSummary summarize slide_text_full).1

/-! ## Embedding of src/video_audio_extraction.py -/

/-- Python slicing `s[:n]` on a string. -/
def pyTruncate (s : String) (n : ℕ) : String := String.mk (s.data.take n)

/-- Outcome of one external tool invocation: success, or failure carrying the
tool's error text (ffmpeg stderr, or the stringified fallback exception). -/
inductive ToolOutcome where
  | ok
  | fail (stderr : String)
deriving Repr, DecidableEq

/-- One row passed to `database.add_audio_failure`, in the argument order of
the calls in src/video_audio_extraction.py. -/
structure FailureRecord where
  video_id : Option ℕ
  slide_id : Option ℕ
  start_frame : ℕ
  end_frame : ℕ
  attempts : ℕ
  error : String
  tool : String
  stderr : String
  details : Option String
deriving Repr, DecidableEq

/-- Outcome of `model.transcribe`: a transcript text, or a raised exception
with its stringified message. -/
inductive TranscribeOutcome where
  | textOut (t : String)
  | exn (msg : String)
deriving Repr, DecidableEq

/-- Environment of external effects for one `get_slide_text` call:
the outcome of each 1-based ffmpeg attempt, the outcome of the moviepy
fallback, the log paths returned by `_write_ffmpeg_log` for the two failure records
(log writing modelled as succeeding), whether
the wav file already exists, whether the resolved video path exists, whether
the `whisper` package imports, and the transcription outcome. -/
structure AudioEnv where
  ffmpegAttempt : ℕ → ToolOutcome
  moviepyOutcome : ToolOutcome
  ffmpegLogPath : String
  moviepyLogPath : String
  wavExists : Bool
  videoExists : Bool
  whisperInstalled : Bool
  transcription : TranscribeOutcome

/-- Stderr truncation used for the database rows written by
`extract_audio_segment`: keep 2000 characters and mark the cut. -/
def truncStderrDB (s : String) : String :=
  if 2000 < s.length then pyTruncate s 2000 ++ "...(truncated)" else s

/-- Python `str.strip()`: drop whitespace from both ends. -/
def pyStrip (s : String) : String :=
  String.mk (((s.data.dropWhile Char.isWhitespace).reverse.dropWhile
    Char.isWhitespace).reverse)

/-- Stderr truncation used for the whisper transcription failure row in
`get_slide_text`: keep 4000 characters and append an ellipsis. -/
def truncStderrWhisper (s : String) : String :=
  if 4000 < s.length then pyTruncate s 4000 ++ "..." else s

/-- The JSON details blob `json.dumps(\x7b'ffmpeg_log_path': log_path\x7d)`
recorded with each extraction failure (log writing modelled as succeeding). -/
def mkLogDetails (logPath : String) : String :=
  "\x7b\"ffmpeg_log_path\": \"" ++ logPath ++ "\"\x7d"

/-- The ffmpeg retry loop of `extract_audio_segment`
(src/video_audio_extraction.py lines 91-117) over the given list of attempt
numbers, threading `last_ffmpeg_stderr`.  Returns whether some attempt
succeeded, the last stderr seen, and the `time.sleep(0.6 * attempt)` backoff
durations performed after failed attempts. -/
def runFfmpegAttempts (env : AudioEnv) :
    List ℕ → Option String → Bool × Option String × List ℚ
  | [], last => (false, last, [])
  | a :: rest, last =>
    match env.ffmpegAttempt a with
    | ToolOutcome.ok => (true, last, [])
    | ToolOutcome.fail s =>
      let r := runFfmpegAttempts env rest (some s)
      (r.1, r.2.1, (3 / 5 : ℚ) * (a : ℚ) :: r.2.2)

/-- Result of `extract_audio_segment`: `error = some msg` models the final
`RuntimeError` being raised; `failures` are the `add_audio_failure` rows in
insertion order; `sleeps` the backoff sleeps. -/
structure ExtractResult where
  error : Option String
  failures : List FailureRecord
  sleeps : List ℚ
deriving Repr, DecidableEq

/-- Shallow embedding of `extract_audio_segment`
(src/video_audio_extraction.py lines 84-175).  `max_attempts = none` models
the Python default `None`, replaced by 3. -/
def extract_audio_segment (env : AudioEnv) (start_frame end_frame : ℕ)
    (fps : ℚ) (max_attempts : Option ℕ) : ExtractResult :=
  let ma := max_attempts.getD 3
  let r := runFfmpegAttempts env (List.range' 1 ma) none
  if r.1 then { error := none, failures := [], sleeps := r.2.2 }
  else
    let stderr_text := r.2.1.getD ""
    let strunc := truncStderrDB stderr_text
    let rec1 : FailureRecord :=
      { video_id := none, slide_id := none, start_frame := start_frame,
        end_frame := end_frame, attempts := ma,
        error := "ffmpeg error: " ++ strunc, tool := "ffmpeg",
        stderr := strunc, details := some (mkLogDetails env.ffmpegLogPath) }
    match env.moviepyOutcome with
    | ToolOutcome.ok => { error := none, failures := [rec1], sleeps := r.2.2 }
    | ToolOutcome.fail m =>
      let mtr := truncStderrDB m
      let rec2 : FailureRecord :=
        { video_id := none, slide_id := none, start_frame := start_frame,
          end_frame := end_frame, attempts := ma,
          error := "MoviePy fallback error: " ++ mtr, tool := "moviepy",
          stderr := mtr, details := some (mkLogDetails env.moviepyLogPath) }
      { error := some ("ffmpeg error (after " ++ toString ma ++ " attempts): " ++
          (match r.2.1 with | some s => s | none => "None") ++
          "\nMoviePy fallback error: " ++ m),
        failures := [rec1, rec2], sleeps := r.2.2 }

/-- Message of the `ImportError` raised by `_load_whisper_model` when the
`whisper` package is missing (src/video_audio_extraction.py line 41). -/
def whisperMissingMsg : String :=
  "Whisper is not installed. Install via 'pip install openai-whisper' or 'pip install -r requirements.txt' (prefer 'openai-whisper' for best compatibility)"

/-- Shallow embedding of `get_slide_text`
(src/video_audio_extraction.py lines 228-331).  `Except.error` models the
`FileNotFoundError` raised for a missing video file; `Except.ok` carries the
returned transcript together with all `add_audio_failure` rows recorded
during the call, in insertion order. -/
def get_slide_text (env : AudioEnv) (last_frame_idx frame_idx : ℕ) (fps : ℚ)
    (audio_retry_attempts : Option ℕ) (video_id : Option ℕ) :
    Except String (String × List FailureRecord) :=
  if ¬ env.videoExists then Except.error "Video file not found"
  else
    let er : ExtractResult :=
      if env.wavExists then { error := none, failures := [], sleeps := [] }
      else extract_audio_segment env last_frame_idx frame_idx fps audio_retry_attempts
    if er.error.isSome then Except.ok ("", er.failures)
    else if ¬ env.whisperInstalled then
      let r : FailureRecord :=
        { video_id := video_id, slide_id := none,
          start_frame := last_frame_idx, end_frame := frame_idx, attempts := 0,
          error := "Whisper not installed: " ++ whisperMissingMsg,
          tool := "whisper", stderr := whisperMissingMsg, details := none }
      Except.ok ("", er.failures ++ [r])
    else
      match env.transcription with
      | TranscribeOutcome.textOut t =>
        if t = "" ∨ pyStrip t = "" then Except.ok ("", er.failures)
        else Except.ok (t, er.failures)
      | TranscribeOutcome.exn msg =>
        let strunc := truncStderrWhisper msg
        let r : FailureRecord :=
          { video_id := video_id, slide_id := none,
            start_frame := last_frame_idx, end_frame := frame_idx,
            attempts := audio_retry_attempts.getD 0,
            error := "Whisper error (refer to stderr)", tool := "whisper",
            stderr := strunc, details := none }
        Except.ok ("", er.failures ++ [r])

/-- Subset of the packaged job dict (src/vid2doc/app.py lines 119-130)
touched by the `text_sample` branch of its `progress_callback`. -/
structure PJob where
  sample_count : ℕ
  empty_samples : ℕ
  samples_persisted : ℕ
  extracts : List (Option ℕ × Option ℚ × Option String)
deriving Repr, DecidableEq

/-- The `text_sample` branch of the packaged `progress_callback`
(src/vid2doc/app.py lines 210-230): bump the sample counter, bump the
empty-samples diagnostic counter when the sample is falsy (absent or the
empty string), append the extract entry with the 10-entry cap, and count a
persisted sample when a latest slide exists and the sample is not `None`. -/
def vid2doc_text_sample (job : PJob) (sample : Option String)
    (source_frame : Option ℕ) (fps : Option ℚ) (latestSlide : Option ℕ) : PJob :=
  let sample_count := job.sample_count + 1
  let empty_samples :=
    if sample = none ∨ sample = some "" then job.empty_samples + 1
    else job.empty_samples
  let ts : Option ℚ :=
    match source_frame, fps with
    | some f, some r => if r = 0 then none else some ((f : ℚ) / r)
    | _, _ => none
  let extracts := job.extracts ++ [(source_frame, ts, sample)]
  let extracts := if 10 < extracts.length then extracts.drop (extracts.length - 10) else extracts
  let samples_persisted :=
    match latestSlide, sample with
    | some _, some _ => job.samples_persisted + 1
    | _, _ => job.samples_persisted
  { sample_count := sample_count, empty_samples := empty_samples,
    samples_persisted := samples_persisted, extracts := extracts }

/-! ## Embedding of the job orchestrator progress callback in src/app.py -/

/-- Python `round(x, 2)` rounds half to even; `roundHalfEven` is the integer
rounding it uses. -/
def roundHalfEven (x : ℚ) : ℤ :=
  let f := ⌊x⌋
  let frac := x - (f : ℚ)
  if frac < 1 / 2 then f
  else if 1 / 2 < frac then f + 1
  else if f % 2 = 0 then f else f + 1

/-- Python `round(x, 2)`. -/
def pyRound2 (x : ℚ) : ℚ := ((roundHalfEven (x * 100) : ℚ)) / 100

/-- Mutable job record of the root orchestrator (src/app.py lines 982-1002),
restricted to the fields the handled events touch.  `lastProgressTs` and
`lastLogTs` model the `_last_progress_ts` and `_last_log_ts` keys, absent
keys read through `get(…, 0)`. -/
structure Job where
  status : String
  percent_complete : ℚ
  frames_processed : ℕ
  total_frames : ℕ
  fps : Option ℚ
  video_id : Option ℕ
  error : Option String
  logs : List String
  lastProgressTs : ℚ
  lastLogTs : ℚ
deriving Repr, DecidableEq

/-- Job record as created by `_start_processing_job` (src/app.py lines
982-1002). -/
def initJob : Job :=
  { status := "queued", percent_complete := 0, frames_processed := 0,
    total_frames := 0, fps := none, video_id := none, error := none,
    logs := [], lastProgressTs := 0, lastLogTs := 0 }

/-- The `_append_log` helper (src/app.py lines 690-693): append, then drop the
oldest entry past the 200-entry cap. -/
def appendLog (job : Job) (message : String) : Job :=
  let ls := job.logs ++ [message]
  { job with logs := if 200 < ls.length then ls.drop 1 else ls }

/-- Payload of a `status` event (the keys read by the status branch of
`progress_callback`, src/app.py lines 800-853).  `none` models an absent
key. -/
structure StatusPayload where
  message : Option String
  frame : Option ℕ
  segment_start : Option ℕ
  progress : Option ℚ
  frames : Option ℕ
  total_frames : Option ℕ
  ffmpeg_stderr : Option String
deriving Repr, DecidableEq

/-- The events handled by the orchestrator's `progress_callback`
(src/app.py lines 749-964) that the verified claims quantify over. -/
inductive PEvent where
  | started (total_frames : Option ℕ) (fps : Option ℚ) (video_id : Option ℕ)
  | progress (frames_processed : Option ℕ) (total_frames : Option ℕ)
      (percent_complete : Option ℚ)
  | status (p : StatusPayload)
  | cancelled (percent_complete : Option ℚ)
  | complete (video_id : Option ℕ)
  | errorEv (message : Option String)
deriving Repr, DecidableEq

/-- PROGRESS_THROTTLE_SECONDS (src/app.py line 697). -/
def PROGRESS_THROTTLE_SECONDS : ℚ := 1 / 2

/-- PROGRESS_MIN_DELTA (src/app.py line 699). -/
def PROGRESS_MIN_DELTA : ℚ := 1

/-- Truncation applied to raw ffmpeg stderr surfaced into the job log
(src/app.py line 852). -/
def truncStderrLog (s : String) : String :=
  if 8000 < s.length then pyTruncate s 8000 ++ "..." else s

/-- Context string built from `segment_start` / `frame`
(src/app.py lines 829-833). -/
def statusContext (message : String) (frame segment_start : Option ℕ) : String :=
  match segment_start, frame with
  | some s, f => message ++ " (segment " ++ toString s ++ " to " ++
      (match f with | some f' => toString f' | none => "None") ++ ")"
  | none, some f => message ++ " (frame " ++ toString f ++ ")"
  | none, none => message

/-- First half of the `status` branch of `progress_callback`
(src/app.py lines 800-828): the throttled percent update and the
frames/total updates, before the log-line throttle. -/
def statusIntermediate (now : ℚ) (job : Job) (p : StatusPayload) : Job :=
  let job :=
    match p.progress with
    | some pct =>
      if PROGRESS_THROTTLE_SECONDS ≤ now - job.lastProgressTs ∨
         PROGRESS_MIN_DELTA ≤ |pct - job.percent_complete| then
        { job with percent_complete := pct, lastProgressTs := now }
      else job
    | none => job
  let job := match p.frames with
             | some f => { job with frames_processed := f }
             | none => job
  match p.total_frames with
  | some t => { job with total_frames := t }
  | none => job

/-- One invocation of the orchestrator's `progress_callback`
(src/app.py lines 749-964) at wall-clock time `now` (the value `time.time()`
returns during this invocation).  The log message text for the progress and
status branches is modelled without the `%.2f` float formatting of the
original f-strings; only the presence and number of appended lines matter to
the verified claims. -/
def progress_callback (now : ℚ) (job : Job) (e : PEvent) : Job :=
  match e with
  | PEvent.started total fps vid =>
    let job := { job with status := "running", total_frames := total.getD 0,
                          fps := fps,
                          video_id := match vid with
                                      | some v => some v
                                      | none => job.video_id }
    let job := { job with percent_complete :=
                   if job.percent_complete = 0 then 1 / 2
                   else job.percent_complete }
    appendLog job "Video properties loaded. Processing started."
  | PEvent.progress frames total percent =>
    let fr := frames.getD 0
    let tot := total.getD (if job.total_frames = 0 then 1 else job.total_frames)
    let pct := match percent with
               | some p => p
               | none => if tot ≠ 0 then pyRound2 ((fr : ℚ) / (tot : ℚ) * 100) else 0
    let job := { job with frames_processed := fr, total_frames := tot,
                          percent_complete := pct }
    appendLog job ("Processed " ++ toString fr ++ " / " ++ toString tot ++ " frames")
  | PEvent.status p =>
    let job := statusIntermediate now job p
    let job :=
      if PROGRESS_THROTTLE_SECONDS ≤ now - job.lastLogTs then
        appendLog { job with lastLogTs := now }
          (statusContext (p.message.getD "Processing update") p.frame p.segment_start)
      else job
    match p.ffmpeg_stderr with
    | some s => if s ≠ "" then appendLog job ("ffmpeg: " ++ truncStderrLog s) else job
    | none => job
  | PEvent.cancelled percent =>
    let job := { job with status := "cancelled",
                          percent_complete := percent.getD job.percent_complete }
    appendLog job "Processing stopped by user request."
  | PEvent.complete vid =>
    let job := { job with status := "completed", video_id := vid,
                          percent_complete := 100 }
    let job := { job with frames_processed := job.total_frames }
    appendLog job "Processing complete."
  | PEvent.errorEv message =>
    let msg := message.getD "Unknown error"
    appendLog { job with status := "error", error := some msg }
      ("Error: " ++ msg)

/-- The percent value a handled event writes into `percent_complete`, if the
branch writes one: the `started` kick-off bump, the reported or computed
percent of a `progress` event, an accepted `status` percent, a reported
`cancelled` percent, and the forced 100 of `complete`. -/
def appliedPercent (now : ℚ) (job : Job) (e : PEvent) : Option ℚ :=
  match e with
  | PEvent.started _ _ _ =>
    if job.percent_complete = 0 then some (1 / 2) else none
  | PEvent.progress frames total percent =>
    let fr := frames.getD 0
    let tot := total.getD (if job.total_frames = 0 then 1 else job.total_frames)
    some (match percent with
          | some p => p
          | none => if tot ≠ 0 then pyRound2 ((fr : ℚ) / (tot : ℚ) * 100) else 0)
  | PEvent.status p =>
    match p.progress with
    | some pct =>
      if PROGRESS_THROTTLE_SECONDS ≤ now - job.lastProgressTs ∨
         PROGRESS_MIN_DELTA ≤ |pct - job.percent_complete| then some pct
      else none
    | none => none
  | PEvent.cancelled percent => percent
  | PEvent.complete _ => some 100
  | PEvent.errorEv _ => none

/-- Log-throttle automaton in isolation: number of accepted status-log
appends for a list of event times, starting from a last-accepted time. -/
def logAccepts : ℚ → List ℚ → ℕ
  | _, [] => 0
  | last, t :: ts =>
    if PROGRESS_THROTTLE_SECONDS ≤ t - last then 1 + logAccepts t ts
    else logAccepts last ts

/-- Fold of the callback over a list of timestamped status events. -/
def runStatusEvents (job : Job) (evs : List (ℚ × StatusPayload)) : Job :=
  evs.foldl (fun j te => progress_callback te.1 j (PEvent.status te.2)) job

/-! ## Auxiliary definitions used by the verification -/

/-- Loop invariant of the detection loop after `n` processed score pairs. -/
structure DetInv (gap n : ℕ) (st : DetState) : Prop where
  frame_eq : st.frameIdx = n + 1
  last_le : st.lastFrameIdx ≤ st.frameIdx
  last_eq : st.lastFrameIdx = (st.boundaries.getLast?).getD 1
  chain : boundaryChain gap 1 st.boundaries
  bounded : ∀ b ∈ st.boundaries, b ≤ n

/-- A 101-word transcript (mid-range word count). -/
def c3Text : String := String.intercalate " " (List.replicate 101 "a")

/-- A summarizer stub returning a fixed summary. -/
def c3Summarizer : String → SummItem := fun _ => { summary_text := some "SUMMARY" }

/-- A 4001-character transcription error message. -/
def longWhisperErr : String := String.mk (List.replicate 4001 'a')

/-! ## C9: resize_frame identity cases -/

/-- C9: `resize_frame` is the identity when `scale_percent` is `None`, zero,
negative, or exactly 100, and performs a resize (with scale factor
`scale_percent / 100`) exactly for the other positive values. -/
theorem resize_frame_no_downscale_identity (Frame : Type)
    (cvResize : Frame → ℚ → Frame) (frame : Frame) :
    resize_frame cvResize frame none = frame ∧
    (∀ sp : ℚ, sp ≤ 0 → resize_frame cvResize frame (some sp) = frame) ∧
    resize_frame cvResize frame (some 100) = frame ∧
    (∀ sp : ℚ, 0 < sp → sp ≠ 100 →
      resize_frame cvResize frame (some sp) = cvResize frame (sp / 100)) := by
  refine ⟨rfl, ?_, ?_, ?_⟩
  · intro sp h
    simp [resize_frame, h]
  · simp [resize_frame]
  · intro sp h1 h2
    simp [resize_frame, h1.ne', h2, not_le.mpr h1]

/-- Witness for C9 at concrete inputs. -/
theorem resize_frame_no_downscale_identity_witness :
    resize_frame (fun (n : ℕ) _ => n + 1) 7 (some (-3)) = 7 ∧
    resize_frame (fun (n : ℕ) _ => n + 1) 7 (some 50) = 8 := by
  constructor
  · exact (resize_frame_no_downscale_identity ℕ (fun n _ => n + 1) 7).2.1 (-3) (by norm_num)
  · exact ((resize_frame_no_downscale_identity ℕ (fun n _ => n + 1) 7).2.2.2 50
      (by norm_num) (by norm_num)).trans rfl

/-! ## C6: complete forces 100, cancellation freezes -/

/-- C6: a `complete` event sets status `completed` and forces
`percent_complete` to 100, while a `cancelled` event sets status `cancelled`
and keeps the percent at the event's reported value, or at the previous value
when none is reported; cancellation never jumps the percent to 100 unless 100
was reported or already reached. -/
theorem complete_forces_100_cancel_freezes (now : ℚ) (job : Job)
    (vid : Option ℕ) (p : ℚ) :
    (progress_callback now job (PEvent.complete vid)).status = "completed" ∧
    (progress_callback now job (PEvent.complete vid)).percent_complete = 100 ∧
    (progress_callback now job (PEvent.cancelled (some p))).status = "cancelled" ∧
    (progress_callback now job (PEvent.cancelled (some p))).percent_complete = p ∧
    (progress_callback now job (PEvent.cancelled none)).status = "cancelled" ∧
    (progress_callback now job (PEvent.cancelled none)).percent_complete =
      job.percent_complete ∧
    (p ≠ 100 →
      (progress_callback now job (PEvent.cancelled (some p))).percent_complete ≠ 100) ∧
    (job.percent_complete ≠ 100 →
      (progress_callback now job (PEvent.cancelled none)).percent_complete ≠ 100) :=
  ⟨rfl, rfl, rfl, rfl, rfl, rfl, fun h => h, fun h => h⟩

/-- Witness for C6: a job cancelled at 40 percent stays at 40, not 100. -/
theorem complete_forces_100_cancel_freezes_witness :
    (progress_callback 0 { initJob with percent_complete := 40 }
        (PEvent.cancelled (some 40))).percent_complete ≠ 100 ∧
    (progress_callback 0 { initJob with percent_complete := 40 }
        (PEvent.cancelled none)).percent_complete ≠ 100 := by
  have h := complete_forces_100_cancel_freezes 0
    { initJob with percent_complete := 40 } none 40
  exact ⟨h.2.2.2.2.2.2.1 (by norm_num), h.2.2.2.2.2.2.2 (by norm_num)⟩

/-! ## C2: slide-change state machine, per-frame behavior -/

/-- C2: on every frame, the pending flag is raised exactly by a score below a
threshold (strict comparison, so equality means no change and a non-pending
state stays untouched apart from the frame counter); while pending, the
transition counter changes only when the frame is more than `frame_gap`
frames past the last confirmed frame; and when the incremented counter
exceeds `transition_limit` the boundary is confirmed: the timestamp
`frame_idx / fps` is emitted, the counter resets to 1, the pending flag
clears, and `last_frame_idx` becomes the current frame. -/
theorem detStep_state_machine_spec (th1 th2 fps : ℚ) (gap limit : ℕ)
    (st : DetState) (s : ℚ × ℚ) :
    ((st.slideChange = false ∧ th1 ≤ s.1 ∧ th2 ≤ s.2) →
      detStep th1 th2 fps gap limit st s = { st with frameIdx := st.frameIdx + 1 }) ∧
    ((s.1 < th1 ∨ s.2 < th2) → ¬ confirms th1 th2 gap limit st s →
      (detStep th1 th2 fps gap limit st s).slideChange = true) ∧
    ((detStep th1 th2 fps gap limit st s).transitionCounter ≠ st.transitionCounter →
      ((st.slideChange = true ∨ s.1 < th1 ∨ s.2 < th2) ∧
        gap < st.frameIdx - st.lastFrameIdx)) ∧
    (confirms th1 th2 gap limit st s →
      detStep th1 th2 fps gap limit st s =
        { frameIdx := st.frameIdx + 1, lastFrameIdx := st.frameIdx,
          transitionCounter := 1, slideChange := false,
          boundaries := st.boundaries ++ [st.frameIdx],
          slideChanges := st.slideChanges ++ [(st.frameIdx : ℚ) / fps] }) := by
  refine ⟨?_, ?_, ?_, ?_⟩
  · rintro ⟨h0, h1, h2⟩
    simp [detStep, h0, not_lt.mpr h1, not_lt.mpr h2]
  · intro h hnc
    have hp : (st.slideChange || decide (s.1 < th1) || decide (s.2 < th2)) = true := by
      rcases h with h | h <;> simp [h]
    by_cases hg : gap < st.frameIdx - st.lastFrameIdx
    · by_cases hl : limit < st.transitionCounter + 1
      · exact absurd ⟨hp, hg, hl⟩ hnc
      · simp [detStep, hp, hg, hl]
    · simp [detStep, hp, hg]
  · intro hne
    by_cases hp : (st.slideChange || decide (s.1 < th1) || decide (s.2 < th2)) = true
    · by_cases hg : gap < st.frameIdx - st.lastFrameIdx
      · refine ⟨?_, hg⟩
        have := (by simpa [Bool.or_eq_true, decide_eq_true_iff] using hp :
          (st.slideChange = true ∨ s.1 < th1) ∨ s.2 < th2)
        tauto
      · simp [detStep, hp, hg] at hne
    · simp [detStep, hp] at hne
  · rintro ⟨hp, hg, hl⟩
    simp [detStep, hp, hg, hl]

/-- Witness for C2: a pending state past the gap with the counter at the
limit confirms a boundary with timestamp 20 / 2 = 10. -/
theorem detStep_state_machine_spec_witness :
    detStep (9/10) (9/10) 2 10 3
        { frameIdx := 20, lastFrameIdx := 1, transitionCounter := 3,
          slideChange := true, boundaries := [], slideChanges := [] } (1, 1) =
      { frameIdx := 21, lastFrameIdx := 20, transitionCounter := 1,
        slideChange := false, boundaries := [20], slideChanges := [10] } := by
  have h := (detStep_state_machine_spec (9/10) (9/10) 2 10 3
      { frameIdx := 20, lastFrameIdx := 1, transitionCounter := 3,
        slideChange := true, boundaries := [], slideChanges := [] } (1, 1)).2.2.2
      ⟨by simp, by norm_num, by norm_num⟩
  rw [h]
  norm_num

/-! ## C4: boundary ordering and counting invariants -/

theorem getLastD_cons (b p : ℕ) (rest : List ℕ) :
    ((b :: rest).getLast?).getD p = (rest.getLast?).getD b := by
  cases rest with
  | nil => rfl
  | cons c cs =>
    rw [List.getLast?_cons_cons]
    obtain ⟨x, hx⟩ := Option.isSome_iff_exists.mp
      (List.getLast?_isSome.mpr (List.cons_ne_nil c cs))
    simp [hx]

theorem boundaryChain_append (gap : ℕ) :
    ∀ (l : List ℕ) (p x : ℕ), boundaryChain gap p l →
      ((l.getLast?).getD p) + gap < x → boundaryChain gap p (l ++ [x])
  | [], p, x, _, hx => ⟨by simpa using hx, trivial⟩
  | b :: rest, p, x, h, hx =>
    ⟨h.1, boundaryChain_append gap rest b x h.2 (by
      simpa [getLastD_cons] using hx)⟩

theorem boundaryChain_lt (gap : ℕ) :
    ∀ (l : List ℕ) (p : ℕ), boundaryChain gap p l → ∀ b ∈ l, p < b
  | [], _, _, b, hb => absurd hb (List.not_mem_nil b)
  | c :: rest, p, h, b, hb => by
    rcases List.mem_cons.mp hb with hcb | hb
    · subst hcb
      have := h.1
      omega
    · have hc : p < c := by have := h.1; omega
      exact hc.trans (boundaryChain_lt gap rest c h.2 b hb)

theorem boundaryChain_pairwise (gap : ℕ) :
    ∀ (l : List ℕ) (p : ℕ), boundaryChain gap p l → l.Pairwise (· < ·)
  | [], _, _ => List.Pairwise.nil
  | c :: rest, p, h =>
    List.Pairwise.cons (boundaryChain_lt gap rest c h.2)
      (boundaryChain_pairwise gap rest c h.2)

theorem boundaryChain_length_bound (gap : ℕ) :
    ∀ (l : List ℕ) (p n : ℕ), boundaryChain gap p l → (∀ b ∈ l, b ≤ n) →
      l = [] ∨ l.length * (gap + 1) + p ≤ n
  | [], _, _, _, _ => Or.inl rfl
  | c :: rest, p, n, h, hb => by
    right
    have hc : p + gap < c := h.1
    have hcn : c ≤ n := hb c (List.mem_cons_self c rest)
    rcases boundaryChain_length_bound gap rest c n h.2
        (fun b hbm => hb b (List.mem_cons_of_mem c hbm)) with hnil | hlen
    · subst hnil
      simp only [List.length_cons, List.length_nil]
      omega
    · simp only [List.length_cons]
      have : (rest.length + 1) * (gap + 1) = rest.length * (gap + 1) + (gap + 1) := by
        ring
      omega

theorem detStep_inv (th1 th2 fps : ℚ) (gap limit n : ℕ) (st : DetState)
    (s : ℚ × ℚ) (h : DetInv gap n st) :
    DetInv gap (n + 1) (detStep th1 th2 fps gap limit st s) := by
  have hfr := h.frame_eq
  have hll := h.last_le
  by_cases hp : (st.slideChange || decide (s.1 < th1) || decide (s.2 < th2)) = true
  · by_cases hg : gap < st.frameIdx - st.lastFrameIdx
    · by_cases hl : limit < st.transitionCounter + 1
      · have e : detStep th1 th2 fps gap limit st s =
            { frameIdx := st.frameIdx + 1, lastFrameIdx := st.frameIdx,
              transitionCounter := 1, slideChange := false,
              boundaries := st.boundaries ++ [st.frameIdx],
              slideChanges := st.slideChanges ++ [(st.frameIdx : ℚ) / fps] } := by
          simp [detStep, hp, hg, hl]
        rw [e]
        refine ⟨by simp [hfr], by simp, ?_, ?_, ?_⟩
        · simp [List.getLast?_concat]
        · refine boundaryChain_append gap st.boundaries 1 st.frameIdx h.chain ?_
          rw [← h.last_eq]
          omega
        · intro b hbm
          rcases List.mem_append.mp hbm with hbl | hbr
          · exact (h.bounded b hbl).trans (Nat.le_succ n)
          · simp only [List.mem_singleton] at hbr
            omega
      · have e : detStep th1 th2 fps gap limit st s =
            { st with frameIdx := st.frameIdx + 1,
                      transitionCounter := st.transitionCounter + 1,
                      slideChange := true } := by
          simp [detStep, hp, hg, hl]
        rw [e]
        exact ⟨by simp [hfr], by simp; omega, h.last_eq, h.chain,
          fun b hbm => (h.bounded b hbm).trans (Nat.le_succ n)⟩
    · have e : detStep th1 th2 fps gap limit st s =
          { st with frameIdx := st.frameIdx + 1, slideChange := true } := by
        simp [detStep, hp, hg]
      rw [e]
      exact ⟨by simp [hfr], by simp; omega, h.last_eq, h.chain,
        fun b hbm => (h.bounded b hbm).trans (Nat.le_succ n)⟩
  · have e : detStep th1 th2 fps gap limit st s =
        { st with frameIdx := st.frameIdx + 1, slideChange := false } := by
      simp only [Bool.not_eq_true] at hp
      simp [detStep, hp]
    rw [e]
    exact ⟨by simp [hfr], by simp; omega, h.last_eq, h.chain,
      fun b hbm => (h.bounded b hbm).trans (Nat.le_succ n)⟩

theorem detInit_inv (gap : ℕ) : DetInv gap 0 detInit :=
  ⟨rfl, le_refl 1, rfl, trivial, fun b hb => absurd hb (List.not_mem_nil b)⟩

theorem detFold_inv (th1 th2 fps : ℚ) (gap limit : ℕ) :
    ∀ (scores : List (ℚ × ℚ)) (st : DetState) (n : ℕ), DetInv gap n st →
      DetInv gap (n + scores.length)
        (scores.foldl (detStep th1 th2 fps gap limit) st)
  | [], st, n, h => by simpa using h
  | sc :: rest, st, n, h => by
    have h1 := detStep_inv th1 th2 fps gap limit n st sc h
    have h2 := detFold_inv th1 th2 fps gap limit rest
      (detStep th1 th2 fps gap limit st sc) (n + 1) h1
    simpa [Nat.add_comm, Nat.add_assoc, Nat.add_left_comm] using h2

theorem detRun_inv (th1 th2 fps : ℚ) (gap limit : ℕ) (scores : List (ℚ × ℚ)) :
    DetInv gap scores.length (detRun th1 th2 fps gap limit scores) := by
  have := detFold_inv th1 th2 fps gap limit scores detInit 0 (detInit_inv gap)
  simpa [detRun] using this

/-- C4: over any score sequence, the confirmed boundary frame indices form a
chain in which consecutive boundaries are more than `frame_gap` apart
(starting more than `frame_gap` past the initial frame), hence they are
strictly increasing, and their number is at most
`total_frames / frame_gap` with `total_frames = scores.length + 1` counting
the initial frame read before the loop. -/
theorem detRun_boundaries_spec (th1 th2 fps : ℚ) (gap limit : ℕ)
    (scores : List (ℚ × ℚ)) (hgap : 0 < gap) :
    boundaryChain gap 1 (detRun th1 th2 fps gap limit scores).boundaries ∧
    List.Pairwise (· < ·) (detRun th1 th2 fps gap limit scores).boundaries ∧
    (detRun th1 th2 fps gap limit scores).boundaries.length ≤
      (scores.length + 1) / gap := by
  have hinv := detRun_inv th1 th2 fps gap limit scores
  refine ⟨hinv.chain, boundaryChain_pairwise gap _ 1 hinv.chain, ?_⟩
  rcases boundaryChain_length_bound gap
      (detRun th1 th2 fps gap limit scores).boundaries 1 scores.length
      hinv.chain hinv.bounded with hnil | hlen
  · simp [hnil]
  · rw [Nat.le_div_iff_mul_le hgap]
    have hexp : (detRun th1 th2 fps gap limit scores).boundaries.length * (gap + 1) =
        (detRun th1 th2 fps gap limit scores).boundaries.length * gap +
        (detRun th1 th2 fps gap limit scores).boundaries.length := by ring
    omega

/-- Witness for C4 on a concrete 25-frame run of all-zero scores. -/
theorem detRun_boundaries_spec_witness :
    boundaryChain 10 1 (detRun (9/10) (9/10) 2 10 3
      (List.replicate 25 ((0 : ℚ), (0 : ℚ)))).boundaries ∧
    List.Pairwise (· < ·) (detRun (9/10) (9/10) 2 10 3
      (List.replicate 25 ((0 : ℚ), (0 : ℚ)))).boundaries ∧
    (detRun (9/10) (9/10) 2 10 3
      (List.replicate 25 ((0 : ℚ), (0 : ℚ)))).boundaries.length ≤
      ((List.replicate 25 ((0 : ℚ), (0 : ℚ))).length + 1) / 10 :=
  detRun_boundaries_spec (9/10) (9/10) 2 10 3
    (List.replicate 25 ((0 : ℚ), (0 : ℚ))) (by norm_num)

/-! ## C3: summarization routing -/

/-- C3, behavior at the failing input: for a 101-word transcript the
summarizer is invoked exactly once, but the resulting slide text is the raw
transcript, not the returned summary — the `else` branch attached to the
`word_count > 1000` check overwrites `summrise_text_result` with the raw
text dict, discarding the summary just computed. -/
theorem midrange_summary_discarded :
    (pySplitWS c3Text).length = 101 ∧
    (routeSummary c3Summarizer c3Text).2 = [c3Text] ∧
    slideSummaryText c3Summarizer c3Text = c3Text ∧
    c3Text ≠ "SUMMARY" := by
  refine ⟨?_, ?_, ?_, ?_⟩
  · rfl
  · rfl
  · rfl
  · decide

/-! ## C10: zero guards in get_video_properties -/

/-- C10 counterexample: on the ffprobe fallback path with a
container-reported duration, fps 0 does not force duration and bit_rate to
0 — the returned duration is the container's 10 and the bit rate is
computed from it. -/
theorem ffprobe_fps0_nonzero_duration_counterexample :
    (get_video_properties_ffprobe 1000 0 1 none (some 10) none 640 480).map
        (fun p => (p.fps, p.duration, p.bit_rate)) = some (0, 10, 800) ∧
    (10 : ℚ) ≠ 0 ∧ (800 : ℚ) ≠ 0 := by
  refine ⟨?_, by norm_num, by norm_num⟩
  have h800 : ((1000 : ℚ) * 8) / 10 = 800 := by norm_num
  simp [get_video_properties_ffprobe, ffprobeFps, ffprobeFrameCount,
    ffprobeDuration, ffprobeBitRate, safeDiv, h800]

theorem guardedSafeDiv_isSome (x p : ℚ) :
    (if p ≠ 0 then safeDiv x p else some 0).isSome = true := by
  by_cases h : p = 0 <;> simp [safeDiv, h]

/-- C10 amended: `get_video_properties` never divides by zero — every
division is guarded, with fallback 0 — and the zero fallbacks hold as the
claim states on the OpenCV path, while on the ffprobe path fps 0 forces
duration and bit_rate to 0 only when the container metadata reports neither
a duration nor a bit rate; a zero height forces aspect_ratio 0 on both
paths. -/
theorem get_video_properties_zero_guards :
    (∀ (fs : ℕ) (fps : ℚ) (fc : ℤ) (w h : ℚ),
        (get_video_properties_cv fs fps fc w h).isSome = true) ∧
    (∀ (fs : ℕ) (rN rD : ℚ) (nb : Option ℤ) (fd fb : Option ℚ) (w h : ℚ),
        (get_video_properties_ffprobe fs rN rD nb fd fb w h).isSome = true) ∧
    (∀ (fs : ℕ) (fc : ℤ) (w h : ℚ),
        (get_video_properties_cv fs 0 fc w h).map
          (fun p => (p.duration, p.bit_rate)) = some (0, 0)) ∧
    (∀ (fs : ℕ) (fps : ℚ) (fc : ℤ) (w : ℚ),
        (get_video_properties_cv fs fps fc w 0).map
          (fun p => p.aspect_ratio) = some 0) ∧
    (∀ (fs : ℕ) (rD : ℚ) (nb : Option ℤ) (w h : ℚ),
        (get_video_properties_ffprobe fs 0 rD nb none none w h).map
          (fun p => (p.fps, p.duration, p.bit_rate)) = some (0, 0, 0)) ∧
    (∀ (fs : ℕ) (rN : ℚ) (nb : Option ℤ) (w h : ℚ),
        (get_video_properties_ffprobe fs rN 0 nb none none w h).map
          (fun p => (p.fps, p.duration, p.bit_rate)) = some (0, 0, 0)) ∧
    (∀ (fs : ℕ) (rN rD : ℚ) (nb : Option ℤ) (fd fb : Option ℚ) (w : ℚ),
        (get_video_properties_ffprobe fs rN rD nb fd fb w 0).map
          (fun p => p.aspect_ratio) = some 0) := by
  have hfpsS : ∀ (rN rD : ℚ), (ffprobeFps rN rD).isSome = true := by
    intro rN rD
    by_cases h0 : rD = 0 <;> simp [ffprobeFps, safeDiv, h0]
  have hduS : ∀ (fd : Option ℚ) (f : ℚ) (fc : ℤ),
      (ffprobeDuration fd f fc).isSome = true := by
    intro fd f fc
    rcases fd with _ | d
    · by_cases h0 : f = 0 <;> simp [ffprobeDuration, safeDiv, h0]
    · simp [ffprobeDuration]
  have hbrS : ∀ (fb : Option ℚ) (fs : ℕ) (du : ℚ),
      (ffprobeBitRate fb fs du).isSome = true := by
    intro fb fs du
    rcases fb with _ | b
    · by_cases h0 : du = 0 <;> simp [ffprobeBitRate, safeDiv, h0]
    · simp [ffprobeBitRate]
  have hcv : ∀ (fs : ℕ) (fps : ℚ) (fc : ℤ) (w h : ℚ),
      (get_video_properties_cv fs fps fc w h).isSome = true := by
    intro fs fps fc w h
    unfold get_video_properties_cv
    obtain ⟨d, hd⟩ := Option.isSome_iff_exists.mp (guardedSafeDiv_isSome (fc : ℚ) fps)
    rw [hd]
    simp only [Option.some_bind]
    obtain ⟨br, hbr⟩ := Option.isSome_iff_exists.mp
      (guardedSafeDiv_isSome ((fs : ℚ) * 8) d)
    rw [hbr]
    simp only [Option.some_bind]
    obtain ⟨ar, har⟩ := Option.isSome_iff_exists.mp (guardedSafeDiv_isSome w h)
    rw [har]
    simp
  have hff : ∀ (fs : ℕ) (rN rD : ℚ) (nb : Option ℤ) (fd fb : Option ℚ) (w h : ℚ),
      (get_video_properties_ffprobe fs rN rD nb fd fb w h).isSome = true := by
    intro fs rN rD nb fd fb w h
    unfold get_video_properties_ffprobe
    obtain ⟨f, hf⟩ := Option.isSome_iff_exists.mp (hfpsS rN rD)
    rw [hf]
    simp only [Option.some_bind]
    obtain ⟨du, hdu⟩ := Option.isSome_iff_exists.mp
      (hduS fd f (ffprobeFrameCount nb fd f))
    rw [hdu]
    simp only [Option.some_bind]
    obtain ⟨br, hbr⟩ := Option.isSome_iff_exists.mp (hbrS fb fs du)
    rw [hbr]
    simp only [Option.some_bind]
    obtain ⟨ar, har⟩ := Option.isSome_iff_exists.mp (guardedSafeDiv_isSome w h)
    rw [har]
    simp
  refine ⟨hcv, hff, ?_, ?_, ?_, ?_, ?_⟩
  · intro fs fc w h
    by_cases h0 : h = 0 <;> simp [get_video_properties_cv, safeDiv, h0]
  · intro fs fps fc w
    by_cases h1 : fps = 0
    · simp [get_video_properties_cv, safeDiv, h1]
    · by_cases h2 : (fc : ℚ) / fps = 0 <;>
        simp [get_video_properties_cv, safeDiv, h1, h2]
  · intro fs rD nb w h
    rcases nb with _ | n <;> by_cases h1 : rD = 0 <;> by_cases h2 : h = 0 <;>
      simp [get_video_properties_ffprobe, ffprobeFps, ffprobeFrameCount,
        ffprobeDuration, ffprobeBitRate, safeDiv, h1, h2]
  · intro fs rN nb w h
    rcases nb with _ | n <;> by_cases h2 : h = 0 <;>
      simp [get_video_properties_ffprobe, ffprobeFps, ffprobeFrameCount,
        ffprobeDuration, ffprobeBitRate, safeDiv, h2]
  · intro fs rN rD nb fd fb w
    unfold get_video_properties_ffprobe
    obtain ⟨f, hf⟩ := Option.isSome_iff_exists.mp (hfpsS rN rD)
    rw [hf]
    simp only [Option.some_bind]
    obtain ⟨du, hdu⟩ := Option.isSome_iff_exists.mp
      (hduS fd f (ffprobeFrameCount nb fd f))
    rw [hdu]
    simp only [Option.some_bind]
    obtain ⟨br, hbr⟩ := Option.isSome_iff_exists.mp (hbrS fb fs du)
    rw [hbr]
    simp only [Option.some_bind]
    simp [safeDiv]

/-! ## C1: double extraction failure -/

/-- C1: when all three default ffmpeg attempts fail and the moviepy fallback
fails too, `get_slide_text` returns the empty transcript with no escaping
exception, exactly two failure records are added — the ffmpeg one and the
moviepy one, each with truncated stderr and a full-log reference — and the
retry loop slept the linear backoffs 0.6, 1.2, 1.8 seconds. -/
theorem double_extraction_failure_spec (env : AudioEnv) (a b : ℕ) (fps : ℚ)
    (vid : Option ℕ) (s1 s2 s3 m : String)
    (hvid : env.videoExists = true) (hwav : env.wavExists = false)
    (h1 : env.ffmpegAttempt 1 = ToolOutcome.fail s1)
    (h2 : env.ffmpegAttempt 2 = ToolOutcome.fail s2)
    (h3 : env.ffmpegAttempt 3 = ToolOutcome.fail s3)
    (hm : env.moviepyOutcome = ToolOutcome.fail m) :
    get_slide_text env a b fps none vid =
      Except.ok ("",
        [{ video_id := none, slide_id := none, start_frame := a, end_frame := b,
           attempts := 3, error := "ffmpeg error: " ++ truncStderrDB s3,
           tool := "ffmpeg", stderr := truncStderrDB s3,
           details := some (mkLogDetails env.ffmpegLogPath) },
         { video_id := none, slide_id := none, start_frame := a, end_frame := b,
           attempts := 3, error := "MoviePy fallback error: " ++ truncStderrDB m,
           tool := "moviepy", stderr := truncStderrDB m,
           details := some (mkLogDetails env.moviepyLogPath) }]) ∧
    (extract_audio_segment env a b fps none).sleeps = [3/5, 6/5, 9/5] := by
  have hloop : runFfmpegAttempts env (List.range' 1 3) none =
      (false, some s3, [3/5, 6/5, 9/5]) := by
    show runFfmpegAttempts env [1, 2, 3] none = _
    simp [runFfmpegAttempts, h1, h2, h3]
    norm_num
  have hext : extract_audio_segment env a b fps none =
      { error := some ("ffmpeg error (after " ++ toString (3 : ℕ) ++
          " attempts): " ++ s3 ++ "\nMoviePy fallback error: " ++ m),
        failures :=
          [{ video_id := none, slide_id := none, start_frame := a, end_frame := b,
             attempts := 3, error := "ffmpeg error: " ++ truncStderrDB s3,
             tool := "ffmpeg", stderr := truncStderrDB s3,
             details := some (mkLogDetails env.ffmpegLogPath) },
           { video_id := none, slide_id := none, start_frame := a, end_frame := b,
             attempts := 3, error := "MoviePy fallback error: " ++ truncStderrDB m,
             tool := "moviepy", stderr := truncStderrDB m,
             details := some (mkLogDetails env.moviepyLogPath) }],
        sleeps := [3/5, 6/5, 9/5] } := by
    simp only [extract_audio_segment, Option.getD_none]
    rw [hloop]
    simp [hm]
  refine ⟨?_, by rw [hext]⟩
  simp [get_slide_text, hvid, hwav, hext]

/-- Witness for C1 on a concrete environment where every tool fails. -/
theorem double_extraction_failure_spec_witness :
    get_slide_text
        { ffmpegAttempt := fun _ => ToolOutcome.fail "boom",
          moviepyOutcome := ToolOutcome.fail "mp",
          ffmpegLogPath := "logs/audio_failures/f.log",
          moviepyLogPath := "logs/audio_failures/m.log",
          wavExists := false, videoExists := true, whisperInstalled := true,
          transcription := TranscribeOutcome.textOut "hi" } 1 11 1 none none =
      Except.ok ("",
        [{ video_id := none, slide_id := none, start_frame := 1, end_frame := 11,
           attempts := 3, error := "ffmpeg error: " ++ truncStderrDB "boom",
           tool := "ffmpeg", stderr := truncStderrDB "boom",
           details := some (mkLogDetails "logs/audio_failures/f.log") },
         { video_id := none, slide_id := none, start_frame := 1, end_frame := 11,
           attempts := 3, error := "MoviePy fallback error: " ++ truncStderrDB "mp",
           tool := "moviepy", stderr := truncStderrDB "mp",
           details := some (mkLogDetails "logs/audio_failures/m.log") }]) ∧
    (extract_audio_segment
        { ffmpegAttempt := fun _ => ToolOutcome.fail "boom",
          moviepyOutcome := ToolOutcome.fail "mp",
          ffmpegLogPath := "logs/audio_failures/f.log",
          moviepyLogPath := "logs/audio_failures/m.log",
          wavExists := false, videoExists := true, whisperInstalled := true,
          transcription := TranscribeOutcome.textOut "hi" } 1 11 1 none).sleeps =
      [3/5, 6/5, 9/5] :=
  double_extraction_failure_spec _ 1 11 1 none "boom" "boom" "boom" "mp"
    rfl rfl rfl rfl rfl rfl

/-! ## C5: transcription failure handling -/

/-- C5 counterexample: a transcription exception whose text has 4001
characters is recorded with a stderr field of 4003 characters (the first
4000 plus the three-character ellipsis), exceeding the claimed 4000-character
bound. -/
theorem string_data_append (a b : String) : (a ++ b).data = a.data ++ b.data := by
  obtain ⟨da⟩ := a
  obtain ⟨db⟩ := b
  rfl

theorem whisper_stderr_4003_counterexample :
    ((get_slide_text
        { ffmpegAttempt := fun _ => ToolOutcome.ok,
          moviepyOutcome := ToolOutcome.ok,
          ffmpegLogPath := "", moviepyLogPath := "",
          wavExists := true, videoExists := true, whisperInstalled := true,
          transcription := TranscribeOutcome.exn longWhisperErr } 1 2 1 none
        none).toOption.map (fun r => r.2.map fun f => (f.tool, f.stderr.length))) =
      some [("whisper", 4003)] ∧ 4000 < 4003 := by
  refine ⟨?_, by norm_num⟩
  have hdata : longWhisperErr.data = List.replicate 4001 'a' := rfl
  have hlen : longWhisperErr.length = 4001 := by
    show longWhisperErr.data.length = 4001
    rw [hdata, List.length_replicate]
  have htr : (truncStderrWhisper longWhisperErr).length = 4003 := by
    unfold truncStderrWhisper
    rw [hlen, if_pos (by norm_num : (4000 : ℕ) < 4001)]
    show ((pyTruncate longWhisperErr 4000 ++ "...").data).length = 4003
    rw [string_data_append]
    show ((List.replicate 4001 'a').take 4000 ++ "...".data).length = 4003
    rw [List.length_append, List.length_take, List.length_replicate]
    norm_num
  have hres : get_slide_text
      { ffmpegAttempt := fun _ => ToolOutcome.ok,
        moviepyOutcome := ToolOutcome.ok,
        ffmpegLogPath := "", moviepyLogPath := "",
        wavExists := true, videoExists := true, whisperInstalled := true,
        transcription := TranscribeOutcome.exn longWhisperErr } 1 2 1 none none =
      Except.ok ("",
        [{ video_id := none, slide_id := none, start_frame := 1, end_frame := 2,
           attempts := 0, error := "Whisper error (refer to stderr)",
           tool := "whisper", stderr := truncStderrWhisper longWhisperErr,
           details := none }]) := by
    simp [get_slide_text]
  rw [hres]
  simp [Except.toOption, htr]

theorem string_length_data (s : String) : s.length = s.data.length := by
  obtain ⟨d⟩ := s
  rfl

theorem truncStderrWhisper_length_le (s : String) :
    (truncStderrWhisper s).length ≤ 4003 := by
  unfold truncStderrWhisper
  by_cases h : 4000 < s.length
  · rw [if_pos h, string_length_data, string_data_append]
    have hmk : (pyTruncate s 4000).data = s.data.take 4000 := rfl
    rw [hmk, List.length_append, List.length_take]
    have hdot : "...".data.length = 3 := rfl
    have hm := Nat.min_le_left 4000 s.data.length
    omega
  · rw [if_neg h]
    omega

/-- C5 amended: `get_slide_text` never raises on transcription problems.  A
missing whisper dependency yields the empty string and exactly one
`tool = whisper` failure whose stderr is the fixed ImportError message (well
under 4000 characters, stored untruncated); a transcription exception yields
the empty string and exactly one `tool = whisper` failure whose stderr is
the exception text truncated to its first 4000 characters with a
three-character ellipsis appended when longer — hence at most 4003
characters; an empty or whitespace-only transcription yields the empty
string with no failure recorded, and the packaged callback counts such an
empty sample only in the `empty_samples` diagnostic counter. -/
theorem whisper_failure_handling_spec (env : AudioEnv) (a b : ℕ) (fps : ℚ)
    (ra : Option ℕ) (vid : Option ℕ) (t msg : String)
    (hvid : env.videoExists = true) (hwav : env.wavExists = true) :
    (env.whisperInstalled = false →
      get_slide_text env a b fps ra vid = Except.ok ("",
        [{ video_id := vid, slide_id := none, start_frame := a, end_frame := b,
           attempts := 0,
           error := "Whisper not installed: " ++ whisperMissingMsg,
           tool := "whisper", stderr := whisperMissingMsg, details := none }]) ∧
      whisperMissingMsg.length ≤ 4000) ∧
    (env.whisperInstalled = true → env.transcription = TranscribeOutcome.exn msg →
      get_slide_text env a b fps ra vid = Except.ok ("",
        [{ video_id := vid, slide_id := none, start_frame := a, end_frame := b,
           attempts := ra.getD 0, error := "Whisper error (refer to stderr)",
           tool := "whisper", stderr := truncStderrWhisper msg,
           details := none }]) ∧
      (truncStderrWhisper msg).length ≤ 4003) ∧
    (env.whisperInstalled = true → env.transcription = TranscribeOutcome.textOut t →
      pyStrip t = "" → get_slide_text env a b fps ra vid = Except.ok ("", [])) ∧
    (∀ (job : PJob) (f : Option ℕ) (r : Option ℚ) (ls : Option ℕ),
      (vid2doc_text_sample job (some "") f r ls).empty_samples =
        job.empty_samples + 1 ∧
      (vid2doc_text_sample job (some "") f r ls).sample_count =
        job.sample_count + 1) := by
  refine ⟨?_, ?_, ?_, ?_⟩
  · intro hmi
    exact ⟨by simp [get_slide_text, hvid, hwav, hmi], by decide⟩
  · intro hwi hex
    exact ⟨by simp [get_slide_text, hvid, hwav, hwi, hex],
      truncStderrWhisper_length_le msg⟩
  · intro hwi htx hemp
    simp [get_slide_text, hvid, hwav, hwi, htx, hemp]
  · intro job f r ls
    constructor <;> simp [vid2doc_text_sample]

/-- Witness for C5 at a concrete environment with whisper missing, and one
with a transcription exception. -/
theorem whisper_failure_handling_spec_witness :
    get_slide_text
        { ffmpegAttempt := fun _ => ToolOutcome.ok,
          moviepyOutcome := ToolOutcome.ok,
          ffmpegLogPath := "", moviepyLogPath := "",
          wavExists := true, videoExists := true, whisperInstalled := false,
          transcription := TranscribeOutcome.textOut "x" } 1 2 1 none (some 5) =
      Except.ok ("",
        [{ video_id := some 5, slide_id := none, start_frame := 1, end_frame := 2,
           attempts := 0,
           error := "Whisper not installed: " ++ whisperMissingMsg,
           tool := "whisper", stderr := whisperMissingMsg, details := none }]) ∧
    get_slide_text
        { ffmpegAttempt := fun _ => ToolOutcome.ok,
          moviepyOutcome := ToolOutcome.ok,
          ffmpegLogPath := "", moviepyLogPath := "",
          wavExists := true, videoExists := true, whisperInstalled := true,
          transcription := TranscribeOutcome.textOut "   " } 1 2 1 none none =
      Except.ok ("", []) := by
  constructor
  · exact ((whisper_failure_handling_spec _ 1 2 1 none (some 5) "x" ""
      rfl rfl).1 rfl).1
  · exact (whisper_failure_handling_spec _ 1 2 1 none none "   " ""
      rfl rfl).2.2.1 rfl rfl (by decide)

/-! ## Field lemmas for the status branch of the callback -/

theorem appendLog_percent (job : Job) (m : String) :
    (appendLog job m).percent_complete = job.percent_complete := rfl

theorem appendLog_lastProgressTs (job : Job) (m : String) :
    (appendLog job m).lastProgressTs = job.lastProgressTs := rfl

theorem appendLog_lastLogTs (job : Job) (m : String) :
    (appendLog job m).lastLogTs = job.lastLogTs := rfl

theorem appendLog_length_le (job : Job) (m : String) :
    (appendLog job m).logs.length ≤ job.logs.length + 1 := by
  simp only [appendLog]
  split <;> simp

theorem si_fields (now : ℚ) (job : Job) (p : StatusPayload) :
    (statusIntermediate now job p).lastLogTs = job.lastLogTs ∧
    (statusIntermediate now job p).logs = job.logs ∧
    (p.progress = none →
      (statusIntermediate now job p).percent_complete = job.percent_complete ∧
      (statusIntermediate now job p).lastProgressTs = job.lastProgressTs) ∧
    (∀ pct, p.progress = some pct →
      ((statusIntermediate now job p).percent_complete =
        if PROGRESS_THROTTLE_SECONDS ≤ now - job.lastProgressTs ∨
           PROGRESS_MIN_DELTA ≤ |pct - job.percent_complete| then pct
        else job.percent_complete) ∧
      ((statusIntermediate now job p).lastProgressTs =
        if PROGRESS_THROTTLE_SECONDS ≤ now - job.lastProgressTs ∨
           PROGRESS_MIN_DELTA ≤ |pct - job.percent_complete| then now
        else job.lastProgressTs)) := by
  obtain ⟨msg, fr, ss, pr, fns, tf, ffs⟩ := p
  refine ⟨?_, ?_, ?_, ?_⟩
  · rcases pr with _ | pct <;> rcases fns with _ | f <;> rcases tf with _ | t <;>
      simp [statusIntermediate, apply_ite (Job.lastLogTs)]
  · rcases pr with _ | pct <;> rcases fns with _ | f <;> rcases tf with _ | t <;>
      simp [statusIntermediate, apply_ite (Job.logs)]
  · rcases pr with _ | pct
    · intro _
      constructor <;> (rcases fns with _ | f <;> rcases tf with _ | t <;>
        simp [statusIntermediate, apply_ite (Job.percent_complete),
          apply_ite (Job.lastProgressTs)])
    · intro h
      exact absurd h (by simp)
  · intro pct hp
    rcases pr with _ | pct'
    · exact absurd hp (by simp)
    · have hpe : pct' = pct := by simpa using hp
      subst hpe
      constructor <;> (rcases fns with _ | f <;> rcases tf with _ | t <;>
        simp [statusIntermediate, apply_ite (Job.percent_complete),
          apply_ite (Job.lastProgressTs)])

theorem status_cb_parts (now : ℚ) (job : Job) (p : StatusPayload) :
    (progress_callback now job (PEvent.status p)).percent_complete =
      (statusIntermediate now job p).percent_complete ∧
    (progress_callback now job (PEvent.status p)).lastProgressTs =
      (statusIntermediate now job p).lastProgressTs ∧
    (progress_callback now job (PEvent.status p)).lastLogTs =
      (if PROGRESS_THROTTLE_SECONDS ≤ now - job.lastLogTs then now
       else job.lastLogTs) ∧
    (p.ffmpeg_stderr = none →
      ¬ (PROGRESS_THROTTLE_SECONDS ≤ now - job.lastLogTs) →
      (progress_callback now job (PEvent.status p)).logs = job.logs) ∧
    (p.ffmpeg_stderr = none →
      (progress_callback now job (PEvent.status p)).logs.length ≤
        job.logs.length +
          (if PROGRESS_THROTTLE_SECONDS ≤ now - job.lastLogTs then 1 else 0)) := by
  have hsi := si_fields now job p
  have hcb : progress_callback now job (PEvent.status p) =
      (match p.ffmpeg_stderr with
       | some sx =>
         if sx ≠ "" then
           appendLog
             (if PROGRESS_THROTTLE_SECONDS ≤ now - job.lastLogTs then
                appendLog
                  { statusIntermediate now job p with lastLogTs := now }
                  (statusContext (p.message.getD "Processing update") p.frame
                    p.segment_start)
              else statusIntermediate now job p)
             ("ffmpeg: " ++ truncStderrLog sx)
         else
           (if PROGRESS_THROTTLE_SECONDS ≤ now - job.lastLogTs then
              appendLog { statusIntermediate now job p with lastLogTs := now }
                (statusContext (p.message.getD "Processing update") p.frame
                  p.segment_start)
            else statusIntermediate now job p)
       | none =>
         if PROGRESS_THROTTLE_SECONDS ≤ now - job.lastLogTs then
           appendLog { statusIntermediate now job p with lastLogTs := now }
             (statusContext (p.message.getD "Processing update") p.frame
               p.segment_start)
         else statusIntermediate now job p) := by
    simp only [progress_callback, hsi.1]
  rw [hcb]
  rcases hff : p.ffmpeg_stderr with _ | sx
  · by_cases hc : PROGRESS_THROTTLE_SECONDS ≤ now - job.lastLogTs
    · refine ⟨?_, ?_, ?_, ?_, ?_⟩ <;>
        simp [hc, appendLog_percent, appendLog_lastProgressTs, appendLog_lastLogTs]
      calc (appendLog { statusIntermediate now job p with lastLogTs := now }
              (statusContext (p.message.getD "Processing update") p.frame
                p.segment_start)).logs.length
          ≤ ({ statusIntermediate now job p with
                lastLogTs := now } : Job).logs.length + 1 := appendLog_length_le _ _
        _ = job.logs.length + 1 := by
            show (statusIntermediate now job p).logs.length + 1 = _
            rw [hsi.2.1]
    · refine ⟨?_, ?_, ?_, ?_, ?_⟩ <;> simp [hc, hsi.1, hsi.2.1]
  · by_cases hfe : sx = ""
    · by_cases hc : PROGRESS_THROTTLE_SECONDS ≤ now - job.lastLogTs <;>
        refine ⟨?_, ?_, ?_, by simp [hff], by simp [hff]⟩ <;>
        simp [hc, hfe, hsi.1, appendLog_percent, appendLog_lastProgressTs,
          appendLog_lastLogTs]
    · by_cases hc : PROGRESS_THROTTLE_SECONDS ≤ now - job.lastLogTs <;>
        refine ⟨?_, ?_, ?_, by simp [hff], by simp [hff]⟩ <;>
        simp [hc, hfe, hsi.1, appendLog_percent, appendLog_lastProgressTs,
          appendLog_lastLogTs]

/-! ## C8: percent monotonicity -/

/-- C8 counterexample: a handled `progress` event reporting percent 10 lowers
`percent_complete` of a job standing at 50 — the handler applies reported
percents verbatim and does not enforce monotonicity. -/
theorem progress_event_lowers_percent_counterexample :
    (progress_callback 0 { initJob with status := "running", percent_complete := 50 }
        (PEvent.progress (some 10) (some 100) (some 10))).percent_complete = 10 ∧
    (10 : ℚ) < 50 ∧
    ({ initJob with
        status := "running"
        percent_complete := 50 } : Job).percent_complete = 50 :=
  ⟨rfl, by norm_num, rfl⟩

/-- C8 amended: the handler applies each handled event's reported (or
computed) percent verbatim — `percent_complete` after an event equals the
event's applied percent when the branch writes one and is otherwise frozen,
so in particular a cancellation without a reported percent freezes the value,
and the value can only decrease when the event itself supplies the lower
percent. -/
theorem percent_applied_verbatim (now : ℚ) (job : Job) (e : PEvent) :
    (progress_callback now job e).percent_complete =
      (appliedPercent now job e).getD job.percent_complete ∧
    (appliedPercent now job e = none →
      (progress_callback now job e).percent_complete = job.percent_complete) ∧
    ((progress_callback now job e).percent_complete < job.percent_complete →
      appliedPercent now job e =
        some ((progress_callback now job e).percent_complete)) ∧
    (progress_callback now job (PEvent.cancelled none)).percent_complete =
      job.percent_complete := by
  have h1 : (progress_callback now job e).percent_complete =
      (appliedPercent now job e).getD job.percent_complete := by
    cases e with
    | started total fps vid =>
      by_cases h0 : job.percent_complete = 0 <;>
        simp [progress_callback, appliedPercent, appendLog, h0]
    | progress frames total percent => rfl
    | status p =>
      rw [(status_cb_parts now job p).1]
      rcases hpr : p.progress with _ | pct
      · rw [((si_fields now job p).2.2.1 hpr).1]
        simp [appliedPercent, hpr]
      · rw [((si_fields now job p).2.2.2 pct hpr).1]
        by_cases hacc : PROGRESS_THROTTLE_SECONDS ≤ now - job.lastProgressTs ∨
            PROGRESS_MIN_DELTA ≤ |pct - job.percent_complete| <;>
          simp [appliedPercent, hpr, hacc]
    | cancelled percent => cases percent <;> rfl
    | complete vid => rfl
    | errorEv message => rfl
  refine ⟨h1, ?_, ?_, rfl⟩
  · intro hn
    rw [h1, hn, Option.getD_none]
  · intro hlt
    rcases hap : appliedPercent now job e with _ | v
    · rw [h1, hap, Option.getD_none] at hlt
      exact absurd hlt (lt_irrefl _)
    · rw [h1, hap, Option.getD_some]

/-- Witness for C8: the theorem applied at a job standing at 50 receiving a
progress event reporting 10. -/
theorem percent_applied_verbatim_witness :
    appliedPercent 0 { initJob with status := "running", percent_complete := 50 }
        (PEvent.progress (some 10) (some 100) (some 10)) =
      some ((progress_callback 0
        { initJob with status := "running", percent_complete := 50 }
        (PEvent.progress (some 10) (some 100) (some 10))).percent_complete) :=
  (percent_applied_verbatim 0
      { initJob with status := "running", percent_complete := 50 }
      (PEvent.progress (some 10) (some 100) (some 10))).2.2.1
    (by norm_num [progress_callback, appendLog])

/-! ## C7: progress throttling -/

/-- C7 counterexample: a status event arriving 0.1 s after the last accepted
percent update, with a percent delta of exactly 1.0 point, is applied — the
code bypasses the throttle for a delta greater than **or equal to** the
minimum, while the claim allows a bypass only for a delta strictly
exceeding it. -/
theorem status_delta_exactly_one_counterexample :
    (progress_callback (1001/10)
        { initJob with
            status := "running"
            lastProgressTs := 100
            lastLogTs := 100 }
        (PEvent.status
          { message := none, frame := none, segment_start := none,
            progress := some 1, frames := none, total_frames := none,
            ffmpeg_stderr := none })).percent_complete = 1 ∧
    ¬ ((1/2 : ℚ) ≤ 1001/10 - 100) ∧
    ¬ ((1 : ℚ) < |(1 : ℚ) - 0|) ∧
    ({ initJob with
        status := "running"
        lastProgressTs := 100
        lastLogTs := 100 } : Job).percent_complete = 0 := by
  refine ⟨?_, by norm_num, by norm_num [abs], rfl⟩
  rw [(status_cb_parts _ _ _).1, ((si_fields _ _ _).2.2.2 1 rfl).1]
  norm_num [PROGRESS_THROTTLE_SECONDS, PROGRESS_MIN_DELTA, initJob, abs]

theorem logAccepts_le (T1 : ℚ) :
    ∀ (ts : List ℚ), (∀ t ∈ ts, t ≤ T1) → ∀ (n : ℕ) (l : ℚ),
      T1 ≤ l + n * (1/2) → logAccepts l ts ≤ n := by
  intro ts
  induction ts with
  | nil => intro _ n l _; simp [logAccepts]
  | cons t rest ih =>
    intro hb n l hn
    have hbt : t ≤ T1 := hb t (List.mem_cons_self t rest)
    have hbr : ∀ x ∈ rest, x ≤ T1 := fun x hx => hb x (List.mem_cons_of_mem t hx)
    unfold logAccepts
    by_cases hacc : PROGRESS_THROTTLE_SECONDS ≤ t - l
    · rw [if_pos hacc]
      unfold PROGRESS_THROTTLE_SECONDS at hacc
      cases n with
      | zero =>
        exfalso
        simp only [Nat.cast_zero, zero_mul, add_zero] at hn
        linarith
      | succ m =>
        have hrec : logAccepts t rest ≤ m := by
          refine ih hbr m t ?_
          push_cast at hn ⊢
          linarith
        omega
    · rw [if_neg hacc]
      exact ih hbr n l hn

theorem logAccepts_window (T : ℚ) :
    ∀ (ts : List ℚ), (∀ t ∈ ts, T ≤ t ∧ t ≤ T + 1) → ∀ l,
      logAccepts l ts ≤ 3 := by
  intro ts
  induction ts with
  | nil => intro _ l; simp [logAccepts]
  | cons t rest ih =>
    intro hb l
    have hbt := hb t (List.mem_cons_self t rest)
    have hbr : ∀ x ∈ rest, T ≤ x ∧ x ≤ T + 1 :=
      fun x hx => hb x (List.mem_cons_of_mem t hx)
    unfold logAccepts
    by_cases hacc : PROGRESS_THROTTLE_SECONDS ≤ t - l
    · rw [if_pos hacc]
      have h2 : logAccepts t rest ≤ 2 := by
        refine logAccepts_le (T + 1) rest (fun x hx => (hbr x hx).2) 2 t ?_
        push_cast
        linarith [hbt.1]
      omega
    · rw [if_neg hacc]
      exact ih hbr l

theorem runStatus_length_le :
    ∀ (evs : List (ℚ × StatusPayload)) (job : Job),
      (∀ e ∈ evs, e.2.ffmpeg_stderr = none) →
      (runStatusEvents job evs).logs.length ≤
        job.logs.length + logAccepts job.lastLogTs (evs.map Prod.fst) := by
  intro evs
  induction evs with
  | nil => intro job _; simp [runStatusEvents, logAccepts]
  | cons e rest ih =>
    intro job hb
    obtain ⟨t, pl⟩ := e
    have hbn : pl.ffmpeg_stderr = none := hb (t, pl) (List.mem_cons_self _ _)
    have hbr : ∀ x ∈ rest, x.2.ffmpeg_stderr = none :=
      fun x hx => hb x (List.mem_cons_of_mem _ hx)
    have hrun : runStatusEvents job ((t, pl) :: rest) =
        runStatusEvents (progress_callback t job (PEvent.status pl)) rest := rfl
    have hmap : ((t, pl) :: rest).map Prod.fst = t :: rest.map Prod.fst := rfl
    rw [hrun, hmap]
    have hstep := status_cb_parts t job pl
    have hrec := ih (progress_callback t job (PEvent.status pl)) hbr
    by_cases hc : PROGRESS_THROTTLE_SECONDS ≤ t - job.lastLogTs
    · have hts : (progress_callback t job (PEvent.status pl)).lastLogTs = t := by
        rw [hstep.2.2.1, if_pos hc]
      have hlen : (progress_callback t job (PEvent.status pl)).logs.length ≤
          job.logs.length + 1 := by
        have := hstep.2.2.2.2 hbn
        rwa [if_pos hc] at this
      rw [hts] at hrec
      unfold logAccepts
      rw [if_pos hc]
      omega
    · have hts : (progress_callback t job (PEvent.status pl)).lastLogTs =
          job.lastLogTs := by
        rw [hstep.2.2.1, if_neg hc]
      have hlg : (progress_callback t job (PEvent.status pl)).logs = job.logs :=
        hstep.2.2.2.1 hbn hc
      rw [hts] at hrec
      unfold logAccepts
      rw [if_neg hc]
      calc (runStatusEvents (progress_callback t job (PEvent.status pl))
              rest).logs.length
          ≤ (progress_callback t job (PEvent.status pl)).logs.length +
              logAccepts job.lastLogTs (rest.map Prod.fst) := hrec
        _ = job.logs.length + logAccepts job.lastLogTs (rest.map Prod.fst) := by
            rw [hlg]

/-- C7 amended: a status event's throttled log line is appended only when at
least 0.5 s elapsed since the last accepted log line; its numeric percent is
applied exactly when at least 0.5 s elapsed since the last accepted percent
update or the percent delta is at least (not strictly greater than) 1.0
point; the two channels keep separate timers — the log timer's new value
depends only on the log-channel condition and the percent timer's only on
the percent-channel condition; and any burst of status events without raw
tool diagnostics within a one-second window appends at most 3 =
ceil(1/0.5) + 1 log lines. -/
theorem status_throttle_spec (now : ℚ) (job : Job) (p : StatusPayload) (pct : ℚ) :
    (p.progress = some pct →
      ((PROGRESS_THROTTLE_SECONDS ≤ now - job.lastProgressTs ∨
          PROGRESS_MIN_DELTA ≤ |pct - job.percent_complete|) →
        (progress_callback now job (PEvent.status p)).percent_complete = pct ∧
        (progress_callback now job (PEvent.status p)).lastProgressTs = now) ∧
      (¬ (PROGRESS_THROTTLE_SECONDS ≤ now - job.lastProgressTs ∨
          PROGRESS_MIN_DELTA ≤ |pct - job.percent_complete|) →
        (progress_callback now job (PEvent.status p)).percent_complete =
          job.percent_complete ∧
        (progress_callback now job (PEvent.status p)).lastProgressTs =
          job.lastProgressTs)) ∧
    (progress_callback now job (PEvent.status p)).lastLogTs =
      (if PROGRESS_THROTTLE_SECONDS ≤ now - job.lastLogTs then now
       else job.lastLogTs) ∧
    (p.ffmpeg_stderr = none →
      ¬ (PROGRESS_THROTTLE_SECONDS ≤ now - job.lastLogTs) →
      (progress_callback now job (PEvent.status p)).logs = job.logs) ∧
    (∀ (job' : Job) (T : ℚ) (evs : List (ℚ × StatusPayload)),
      (∀ e ∈ evs, e.2.ffmpeg_stderr = none ∧ T ≤ e.1 ∧ e.1 ≤ T + 1) →
      (runStatusEvents job' evs).logs.length ≤ job'.logs.length + 3) := by
  have hstep := status_cb_parts now job p
  refine ⟨?_, hstep.2.2.1, hstep.2.2.2.1, ?_⟩
  · intro hpr
    have hpc := hstep.1
    have hpt := hstep.2.1
    rw [((si_fields now job p).2.2.2 pct hpr).1] at hpc
    rw [((si_fields now job p).2.2.2 pct hpr).2] at hpt
    constructor
    · intro hacc
      rw [if_pos hacc] at hpc hpt
      exact ⟨hpc, hpt⟩
    · intro hacc
      rw [if_neg hacc] at hpc hpt
      exact ⟨hpc, hpt⟩
  · intro job' T evs hev
    calc (runStatusEvents job' evs).logs.length
        ≤ job'.logs.length + logAccepts job'.lastLogTs (evs.map Prod.fst) :=
          runStatus_length_le evs job' (fun e he => (hev e he).1)
      _ ≤ job'.logs.length + 3 := by
          have hw : ∀ t ∈ evs.map Prod.fst, T ≤ t ∧ t ≤ T + 1 := by
            intro t ht
            obtain ⟨e, he, rfl⟩ := List.mem_map.mp ht
            exact ⟨(hev e he).2.1, (hev e he).2.2⟩
          have := logAccepts_window T (evs.map Prod.fst) hw job'.lastLogTs
          omega

/-- Witness for C7: an accepted percent update 1 s after the previous one,
and a four-event burst inside one second appending at most three lines. -/
theorem status_throttle_spec_witness :
    (progress_callback 10 { initJob with lastProgressTs := 9, lastLogTs := 9 }
        (PEvent.status
          { message := none, frame := none, segment_start := none,
            progress := some 55, frames := none, total_frames := none,
            ffmpeg_stderr := none })).percent_complete = 55 ∧
    (runStatusEvents initJob
        [(0, { message := none, frame := none, segment_start := none,
               progress := none, frames := none, total_frames := none,
               ffmpeg_stderr := none }),
         (1/10, { message := none, frame := none, segment_start := none,
                  progress := none, frames := none, total_frames := none,
                  ffmpeg_stderr := none }),
         (2/10, { message := none, frame := none, segment_start := none,
                  progress := none, frames := none, total_frames := none,
                  ffmpeg_stderr := none }),
         (3/10, { message := none, frame := none, segment_start := none,
                  progress := none, frames := none, total_frames := none,
                  ffmpeg_stderr := none })]).logs.length ≤
      initJob.logs.length + 3 := by
  constructor
  · exact (((status_throttle_spec 10
      { initJob with lastProgressTs := 9, lastLogTs := 9 }
      { message := none, frame := none, segment_start := none,
        progress := some 55, frames := none, total_frames := none,
        ffmpeg_stderr := none } 55).1 rfl).1
      (Or.inl (by norm_num [PROGRESS_THROTTLE_SECONDS, initJob]))).1
  · refine (status_throttle_spec 0 initJob
      { message := none, frame := none, segment_start := none,
        progress := none, frames := none, total_frames := none,
        ffmpeg_stderr := none } 0).2.2.2 initJob 0 _ ?_
    intro e he
    simp only [List.mem_cons, List.not_mem_nil, or_false] at he
    rcases he with rfl | rfl | rfl | rfl <;>
      exact ⟨rfl, by norm_num, by norm_num⟩

end Vid2Doc
